import Mathlib

/-
Verification development for the `station_finder` site scoring and selection
engine (`src/station_finder/functions.py`).

The Python code is shallowly embedded over exact rationals (`ℚ`):

* planar points are pairs of rationals;
* a weighted network part (`WeightedLineString`) is a coordinate list with a
  rational weight;
* the external shapely operation `ops.unary_union` over weighted line
  segments is modelled as the multiset union (concatenation) of their
  constituent single curves, keeping the per-part weight attribute that the
  scoring loop reads back (the weighted-network contract of the design);
* Euclidean distance from a candidate to a network part or to a hub centroid
  is irrational in general, so `score_locations` and `get_best_location`
  take the distance functions as explicit parameters (`distL` for
  point-to-curve, `distP` for point-to-point); claims about scoring quantify
  over, or concretely instantiate, those parameters;
* the point-to-point distance comparison `dist(p, q) <= distance_min` inside
  `merge_closest_points` is embedded as the exactly equivalent rational test
  `0 ≤ distance_min ∧ distSq p q ≤ distance_min ^ 2`;
* fallible code paths are embedded with `Except`; a read of a Python local
  variable that was never assigned (an `UnboundLocalError` at run time) is
  the error case `PyErr.unboundLocal`, and a read of a previously assigned
  loop-local that the current iteration failed to reassign is embedded by
  threading the stale value through the fold, exactly as Python scoping
  behaves.
-/

namespace StationFinder

/-- A planar point with exact rational coordinates. -/
abbrev Pt : Type := ℚ × ℚ

/-- A constituent part of the weighted road network: the coordinate list of a
single curve together with its traffic weight (the `WeightedLineString`
class of the source, a `LineString` carrying a `weight` attribute). -/
structure WSeg where
  coords : List Pt
  weight : ℚ
  deriving DecidableEq, Repr

/-- A sub-geometry of a multi-curve, as distinguished by the `isinstance`
tests in `create_network`: either an already weighted curve or a plain one.
(shapely guarantees that the members of a `MultiLineString` are
`LineString`s, and `WeightedLineString` is a `LineString` subclass.) -/
inductive SubGeom where
  | wline (coords : List Pt) (w : ℚ)
  | line (coords : List Pt)
  deriving DecidableEq, Repr

/-- Coordinates of a sub-geometry. -/
def SubGeom.coords : SubGeom → List Pt
  | .wline c _ => c
  | .line c => c

/-- An input geometry of `create_network`, as distinguished by its
`isinstance` tests: a `WeightedLineString`, a plain `LineString`, a
`MultiLineString`, or any non-curve geometry (e.g. a `Point`), which no
branch of the code handles. -/
inductive Geom where
  | wline (coords : List Pt) (w : ℚ)
  | line (coords : List Pt)
  | multi (subs : List SubGeom)
  | other
  deriving DecidableEq, Repr

/-- Python errors surfaced by the embedding: reading a local variable that
was never assigned (`UnboundLocalError`). -/
inductive PyErr where
  | unboundLocal
  deriving DecidableEq, Repr

/-- The sub-segment wrapping loop of `create_network` (lines 113-118): an
already weighted sub-curve is kept with its own weight, a plain sub-curve is
wrapped with the parent segment's traffic value. -/
def subWithWeight (traffic : ℚ) : SubGeom → WSeg
  | .wline c w => ⟨c, w⟩
  | .line c => ⟨c, traffic⟩

/-- `WeightedMultiLineString.__init__` (lines 36-40 of the source) called
with the `weights` parameter left at its default `None`: it re-wraps every
given line as `WeightedLineString(line, weight=0.0)`, because
`weights = [0.0] * len(lines)`.  The weights of the lines passed in are
discarded.  (`create_network` passes `weight=traffic`, which lands in
`**kwargs`, not in `weights`.) -/
def weightedMultiLineString (lines : List WSeg) : List WSeg :=
  lines.map (fun l => ⟨l.coords, 0⟩)

/-- The body of the `create_network` loop with the Python scoping of the
local `segment_with_weight` made explicit: `last` is the value the variable
holds from the previous iteration (`none` before the first assignment).
Each processed segment contributes its constituent weighted parts to the
union that `ops.unary_union` builds at the end (modelled as concatenation).
For a geometry that matches no `isinstance` branch the variable is not
reassigned, so the previous segment is appended again — or, on the first
iteration, reading the unassigned variable raises `UnboundLocalError`. -/
def createGo : List (Geom × ℚ) → Option (List WSeg) → List WSeg →
    Except PyErr (List WSeg)
  | [], _, acc => .ok acc
  | (g, traffic) :: rest, last, acc =>
    match g with
    | .wline c w => createGo rest (some [⟨c, w⟩]) (acc ++ [⟨c, w⟩])
    | .line c => createGo rest (some [⟨c, traffic⟩]) (acc ++ [⟨c, traffic⟩])
    | .multi subs =>
      let parts := weightedMultiLineString (subs.map (subWithWeight traffic))
      createGo rest (some parts) (acc ++ parts)
    | .other =>
      match last with
      | none => .error .unboundLocal
      | some parts => createGo rest (some parts) (acc ++ parts)

/-- `StationLocator.create_network` (lines 93-123): zip the segments with
their traffic values, wrap each in a weighted class, and return the union of
all weighted parts. -/
def create_network (road_segments : List Geom) (traffic_values : List ℚ) :
    Except PyErr (List WSeg) :=
  createGo (road_segments.zip traffic_values) none []

/-- `StationLocator.score_locations` (lines 125-205).  `distL` is the
Euclidean distance from the candidate to a network part's curve, `distP` the
Euclidean distance between two points (both external shapely computations,
taken as parameters).  `airLogis` is the hub table (centroid paired with its
normalized `surface_totale`), `stationsG` the existing gas-station points.
Constants as in the source: `max_road = 500`, `max_distance = 10000`,
`proximity_weight = 2`, `traffic_weight = 5`, `aires_weight = 10`,
`station_weight = -2`. -/
def score_locations (distL : Pt → List Pt → ℚ) (distP : Pt → Pt → ℚ)
    (airLogis : List (Pt × ℚ)) (stationsG : List Pt)
    (candidate : Pt) (road_network : List WSeg) (gas_stations : Bool) : ℚ :=
  let max_road : ℚ := 500
  let max_distance : ℚ := 10000
  let roadScore := (road_network.map (fun seg =>
    let d := distL candidate seg.coords
    if d ≤ max_road / 2 then
      2 * ((max_road - d) / max_road) + seg.weight * 5
    else if d ≤ max_road then
      2 * ((max_road - d) / max_road / 2) + seg.weight / 2 * 5
    else 0)).sum
  let airesScore := (airLogis.map (fun a =>
    let d := distP candidate a.1
    if d ≤ max_distance / 2 then
      ((max_distance - d) / max_distance + a.2) * 10
    else if d ≤ max_distance then
      ((max_distance - d) / max_distance / 2 + a.2 / 2) * 10
    else 0)).sum
  let stationScore := if gas_stations then (stationsG.map (fun s =>
    let d := distP candidate s
    if d ≤ max_distance / 2 then
      (max_distance - d) / max_distance * (-2)
    else if d ≤ max_distance then
      (max_distance - d) / max_distance / 2 * (-2)
    else 0)).sum
  else 0
  roadScore + airesScore + stationScore

/-- All coordinates appearing in the network. -/
def netCoords (net : List WSeg) : List Pt :=
  net.flatMap (fun s => s.coords)

/-- Axis-aligned bounding box, shapely's `bounds` order
`(minx, miny, maxx, maxy)`. -/
structure Bounds where
  xmin : ℚ
  ymin : ℚ
  xmax : ℚ
  ymax : ℚ
  deriving DecidableEq, Repr

/-- Minimum of a rational list (`0` for the empty list, which shapely's
`bounds` never produces for a nonempty network). -/
def listMin : List ℚ → ℚ
  | [] => 0
  | x :: xs => xs.foldl min x

/-- Maximum of a rational list (`0` for the empty list). -/
def listMax : List ℚ → ℚ
  | [] => 0
  | x :: xs => xs.foldl max x

/-- `network.bounds` (line 224). -/
def netBounds (net : List WSeg) : Bounds :=
  ⟨listMin ((netCoords net).map (fun p => p.1)),
   listMin ((netCoords net).map (fun p => p.2)),
   listMax ((netCoords net).map (fun p => p.1)),
   listMax ((netCoords net).map (fun p => p.2))⟩

/-- `np.arange(start, stop, step)` over exact rationals, for the positive
steps the code uses: the values `start + k * step` for
`0 ≤ k < ⌈(stop - start) / step⌉`. -/
def arangeQ (start stop step : ℚ) : List ℚ :=
  if 0 < step then
    (List.range (Int.toNat ⌈(stop - start) / step⌉)).map
      (fun k : ℕ => start + (k : ℚ) * step)
  else []

/-- The x lattice of `get_best_location` (line 225):
`np.arange(xmin, xmax + grid_size, grid_size)`. -/
def gridX (net : List WSeg) (grid_size : ℚ) : List ℚ :=
  arangeQ (netBounds net).xmin ((netBounds net).xmax + grid_size) grid_size

/-- The y lattice of `get_best_location` (line 226). -/
def gridY (net : List WSeg) (grid_size : ℚ) : List ℚ :=
  arangeQ (netBounds net).ymin ((netBounds net).ymax + grid_size) grid_size

/-- The grid points of `get_best_location` (line 229):
`np.transpose([np.tile(x_coords, len(y_coords)), np.repeat(y_coords,
len(x_coords))])`, i.e. for each y value every x value, in order. -/
def gridPoints (net : List WSeg) (grid_size : ℚ) : List Pt :=
  (gridY net grid_size).flatMap (fun y =>
    (gridX net grid_size).map (fun x => (x, y)))

/-- `StationLocator.get_best_location` (lines 207-239): build the network,
generate the grid candidates (unless a candidate override is supplied),
score every candidate, and return the scored candidates sorted by score
descending (Python's stable `sorted` with `reverse=True`). -/
def get_best_location (distL : Pt → List Pt → ℚ) (distP : Pt → Pt → ℚ)
    (airLogis : List (Pt × ℚ)) (stationsG : List Pt)
    (road_segments : List Geom) (traffic_only : List ℚ)
    (grid_size : ℚ) (gas_stations : Bool)
    (candidate_locations : Option (List Pt)) :
    Except PyErr (List (Pt × ℚ)) := do
  let network ← create_network road_segments traffic_only
  let candidates := match candidate_locations with
    | none => gridPoints network grid_size
    | some l => l
  let weighted_scores := candidates.map (fun c =>
    (c, score_locations distL distP airLogis stationsG c network gas_stations))
  pure (weighted_scores.mergeSort (fun a b => decide (b.2 ≤ a.2)))

/-- Squared Euclidean distance between two points (exact in `ℚ`). -/
def distSq (p q : Pt) : ℚ :=
  (p.1 - q.1) ^ 2 + (p.2 - q.2) ^ 2

/-- The proximity test of `merge_closest_points` (line 334):
`top_locations[i][0].distance(top_locations[j][0]) <= distance_min`,
embedded by the equivalent squared comparison. -/
def within (p q : Pt) (dmin : ℚ) : Bool :=
  decide (0 ≤ dmin ∧ distSq p q ≤ dmin ^ 2)

/-- The proximity set of one candidate (the list `distances[i]`, lines
330-335): the coordinates of every candidate within `distance_min`,
in candidate order; it always contains the candidate itself. -/
def proxOf (top : List (Pt × ℚ)) (dmin : ℚ) (t : Pt × ℚ) : List Pt :=
  (top.filter (fun tj => within t.1 tj.1 dmin)).map (fun tj => tj.1)

/-- All proximity sets, one per candidate, in candidate order. -/
def proxSets (top : List (Pt × ℚ)) (dmin : ℚ) : List (List Pt) :=
  top.map (proxOf top dmin)

/-- The cluster selection loop of `merge_closest_points` (lines 344-347).
The loop runs `for i in range(len(distances))`, i.e. over candidate indices
in ascending numeric order (the preceding sort of the dictionary by set size
reorders only its insertion order, which a key lookup `distances[i]`
ignores).  A candidate whose proximity set shares any coordinate with the
points already claimed (`set(distances[i]).isdisjoint(...)` fails) is
skipped; otherwise its whole proximity set becomes a new cluster. -/
def selectGo : List (List Pt) → List Pt → List (List Pt)
  | [], _ => []
  | ps :: rest, claimed =>
    if ∀ p ∈ ps, p ∉ claimed then ps :: selectGo rest (claimed ++ ps)
    else selectGo rest claimed

/-- The clusters (`distances_reduced.values()`) produced by
`merge_closest_points` for the given candidates. -/
def selectClusters (top : List (Pt × ℚ)) (dmin : ℚ) : List (List Pt) :=
  selectGo (proxSets top dmin) []

/-- Area centroid of the polygon with the given vertex ring (shapely
`Polygon(values).centroid`, the surveyor/shoelace formula).  The ring is
closed implicitly.  For a degenerate zero-area ring the rational division
by zero yields the junk value `(0, 0)` where shapely yields an empty
geometry. -/
def polygonCentroid (pts : List Pt) : Pt :=
  let ring := pts ++ [pts.headD (0, 0)]
  let edges := ring.zip ring.tail
  let a2 := (edges.map (fun e => e.1.1 * e.2.2 - e.2.1 * e.1.2)).sum
  let cx := (edges.map (fun e =>
    (e.1.1 + e.2.1) * (e.1.1 * e.2.2 - e.2.1 * e.1.2))).sum
  let cy := (edges.map (fun e =>
    (e.1.2 + e.2.2) * (e.1.1 * e.2.2 - e.2.1 * e.1.2))).sum
  (cx / (3 * a2), cy / (3 * a2))

/-- The representative point of a cluster (lines 350-357): one point is its
own representative; for two points the code takes
`LineString([v0, v1]).centroid`, the midpoint of the segment; otherwise it
takes `Polygon(values).centroid`, the area centroid of the polygon formed by
the cluster's points in their stored order. -/
def representative : List Pt → Pt
  | [p] => p
  | [p, q] => ((p.1 + q.1) / 2, (p.2 + q.2) / 2)
  | l => polygonCentroid l

/-- The aggregated score of a cluster (line 358): `np.mean` of the scores of
the original candidates whose point lies in the cluster's value list. -/
def avgScore (top : List (Pt × ℚ)) (values : List Pt) : ℚ :=
  let ms := top.filter (fun t => decide (t.1 ∈ values))
  (ms.map (fun t => t.2)).sum / (ms.length : ℚ)

/-- `Scenarios.merge_closest_points` (lines 322-362): build the proximity
sets, greedily select disjoint clusters, and return for each cluster its
representative point, average score, and merge count. -/
def merge_closest_points (top_locations : List (Pt × ℚ)) (distance_min : ℚ) :
    List (Pt × ℚ × ℕ) :=
  (selectClusters top_locations distance_min).map (fun v =>
    (representative v, avgScore top_locations v, v.length))

/-- Stable insertion of a proximity set into a list kept in descending
order of size: the new set goes before the first strictly smaller one,
after all sets of greater or equal size. -/
def insertBySize (v : List Pt) : List (List Pt) → List (List Pt)
  | [] => [v]
  | w :: rest =>
    if w.length ≤ v.length then v :: w :: rest else w :: insertBySize v rest

/-- Stable sort of the proximity sets by size, descending — the order
Python's stable `sorted(..., key=lambda item: item[1][1], reverse=True)` on
line 340 produces. -/
def sortBySize (l : List (List Pt)) : List (List Pt) :=
  l.foldr insertBySize []

/-- The cluster selection as the specification describes it: candidates
processed in descending order of proximity-set size (stable, keeping
Python's `sorted` tie-break by original index), then the same greedy
selection.  This is what the dead `sorted(...)` on line 340 was evidently
meant to achieve. -/
def merge_closest_points_bySize (top_locations : List (Pt × ℚ))
    (distance_min : ℚ) : List (Pt × ℚ × ℕ) :=
  (selectGo (sortBySize (proxSets top_locations distance_min)) []).map
    (fun v => (representative v, avgScore top_locations v, v.length))

/-- `pd.Series.to_dict()` applied to the regional demand series (line 452):
a mapping keyed by region, keeping the last value for a duplicated key;
keys appear in first-occurrence order. -/
def seriesToDict (l : List (String × ℚ)) : List (String × ℚ) :=
  (l.map (fun e => e.1)).dedup.map (fun k =>
    (k, (((l.filter (fun e => decide (e.1 = k))).map
      (fun e => e.2)).getLast?).getD 0))

/-- `demand_total` (line 453): the sum of the regional demand mapping's
values. -/
def demandTotal (regions_dem : List (String × ℚ)) : ℚ :=
  ((seriesToDict regions_dem).map (fun e => e.2)).sum

/-- The sizing loop of `get_size_station` (lines 465-477) with the Python
scoping of the local `station_size` made explicit: `last` is the tier the
variable holds from a previous iteration.  When none of the three tier
thresholds is met the variable is not reassigned, so the previous site's
tier is used for the tuple — or, on the first such site, reading the
unassigned variable raises `UnboundLocalError`.  The capacity and
profitability triples are ordered `(small, medium, large)` as in the
configuration lists. -/
def sizeGo (caps profs : ℚ × ℚ × ℚ) (demand_total score_total : ℚ) :
    List (Pt × ℚ) → Option String → Except PyErr (List (Pt × String × ℚ × ℚ))
  | [], _ => .ok []
  | (p, s) :: rest, last =>
    let demand := s / score_total * demand_total
    let tier : Option String :=
      if profs.2.2 * caps.2.2 < demand then some "large"
      else if profs.2.1 * caps.2.1 < demand then some "medium"
      else if profs.1 * caps.1 < demand then some "small"
      else last
    match tier with
    | none => .error .unboundLocal
    | some sz =>
      (sizeGo caps profs demand_total score_total rest (some sz)).map
        (fun out => (p, sz, s, demand) :: out)

/-- `Scenarios.get_size_station` (lines 442-477): for each site, estimated
demand is `score / score_total * demand_total`; the tier thresholds are
evaluated large → medium → small. -/
def get_size_station (caps profs : ℚ × ℚ × ℚ)
    (regions_dem : List (String × ℚ)) (new_points : List (Pt × ℚ))
    (score_total : ℚ) : Except PyErr (List (Pt × String × ℚ × ℚ)) :=
  sizeGo caps profs (demandTotal regions_dem) score_total new_points none

/-- Cross product used by the convex hull construction:
positive when `o → a → b` turns counterclockwise. -/
def cross (o a b : Pt) : ℚ :=
  (a.1 - o.1) * (b.2 - o.2) - (a.2 - o.2) * (b.1 - o.1)

/-- One step of Andrew's monotone chain: push `p`, popping points that do
not keep the chain convex.  The chain is kept most-recent-first. -/
def chainStep (p : Pt) : List Pt → List Pt
  | a :: b :: rest =>
    if cross b a p ≤ 0 then chainStep p (b :: rest) else p :: a :: b :: rest
  | l => p :: l

/-- Half hull (lower or upper, depending on input order), most-recent-first. -/
def halfHull (pts : List Pt) : List Pt :=
  pts.foldl (fun hull p => chainStep p hull) []

/-- Lexicographic order on points (x first, then y). -/
def lexLe (a b : Pt) : Prop :=
  a.1 < b.1 ∨ (a.1 = b.1 ∧ a.2 ≤ b.2)

instance : DecidablePred (fun ab : Pt × Pt => lexLe ab.1 ab.2) := by
  intro ab
  unfold lexLe
  infer_instance

instance (a b : Pt) : Decidable (lexLe a b) := by
  unfold lexLe
  infer_instance

/-- Insertion into a lexicographically sorted point list. -/
def insertLex (p : Pt) : List Pt → List Pt
  | [] => [p]
  | q :: rest => if lexLe p q then p :: q :: rest else q :: insertLex p rest

/-- Lexicographic insertion sort of a point list. -/
def sortLex (pts : List Pt) : List Pt :=
  pts.foldr insertLex []

/-- Convex hull of a finite point list by Andrew's monotone chain, returned
as a counterclockwise vertex ring (no repeated endpoint).  This is the
specification-side notion used to compare against the code's polygon
centroid; it is not part of the source. -/
def convexHullPts (pts : List Pt) : List Pt :=
  let s := sortLex pts
  let lower := halfHull s
  let upper := halfHull s.reverse
  lower.reverse.dropLast ++ upper.reverse.dropLast

/-- The centroid of the convex hull of a point set, the representative that
the specification prescribes for clusters of three or more points. -/
def convexHullCentroid (pts : List Pt) : Pt :=
  polygonCentroid (convexHullPts pts)

/-! ### Concrete example inputs used by the claim instances -/

/-- Two candidates 3000 units apart (the specification's merge scenario). -/
def exTop2 : List (Pt × ℚ) := [((0, 0), 10), ((3000, 0), 20)]

/-- A chain of three candidates: each neighbour pair is within 5000 units
(`4000` and `3100`), the two ends are not (`4000² + 3100² > 5000²`). -/
def exTop3 : List (Pt × ℚ) := [((0, 0), 1), ((4000, 0), 2), ((4000, 3100), 3)]

/-- Four mutually close candidates whose stored order traces a non-convex
polygon: `(2, 1)` lies inside the triangle of the other three. -/
def exTop4 : List (Pt × ℚ) :=
  [((0, 0), 1), ((4, 0), 1), ((4, 4), 1), ((2, 1), 1)]

/-- A one-segment road table. -/
def exRoads : List Geom := [Geom.line [(0, 0), (1, 1)]]

/-- The network `create_network` builds from `exRoads` with traffic `1/2`. -/
def exNet : List WSeg := [⟨[(0, 0), (1, 1)], 1 / 2⟩]

/-- A constant point-to-curve distance of 1000 units. -/
def dist1000 : Pt → List Pt → ℚ := fun _ _ => 1000

/-- A constant point-to-curve distance of exactly 500 units (`max_road`). -/
def dist500 : Pt → List Pt → ℚ := fun _ _ => 500

/-- A constant point-to-point distance of 0 units. -/
def distP0 : Pt → Pt → ℚ := fun _ _ => 0

/-! ### General lemmas about the embedding -/

theorem selectGo_subset {l : List (List Pt)} {claimed v : List Pt}
    (h : v ∈ selectGo l claimed) : v ∈ l := by
  induction l generalizing claimed with
  | nil => simp [selectGo] at h
  | cons ps rest ih =>
    rw [selectGo] at h
    split at h
    · rcases List.mem_cons.mp h with h | h
      · exact h ▸ List.mem_cons_self _ _
      · exact List.mem_cons_of_mem _ (ih h)
    · exact List.mem_cons_of_mem _ (ih h)

theorem selectGo_fresh {l : List (List Pt)} {claimed v : List Pt}
    (h : v ∈ selectGo l claimed) : ∀ p ∈ v, p ∉ claimed := by
  induction l generalizing claimed with
  | nil => simp [selectGo] at h
  | cons ps rest ih =>
    rw [selectGo] at h
    split at h
    next hc =>
      rcases List.mem_cons.mp h with h | h
      · subst h; exact hc
      · intro p hp hpc
        exact ih h p hp (List.mem_append.mpr (Or.inl hpc))
    next => exact ih h

theorem selectGo_pairwise (l : List (List Pt)) (claimed : List Pt) :
    (selectGo l claimed).Pairwise
      (fun v1 v2 => ∀ p, p ∈ v1 → p ∈ v2 → False) := by
  induction l generalizing claimed with
  | nil => simp [selectGo]
  | cons ps rest ih =>
    rw [selectGo]
    split
    · refine List.Pairwise.cons ?_ (ih _)
      intro v2 hv2 p hp1 hp2
      exact selectGo_fresh hv2 p hp2 (List.mem_append.mpr (Or.inr hp1))
    · exact ih _

theorem foldl_min_le_init (l : List ℚ) (a : ℚ) : l.foldl min a ≤ a := by
  induction l generalizing a with
  | nil => exact le_refl a
  | cons x xs ih => exact (ih (min a x)).trans (min_le_left a x)

theorem foldl_min_le_mem {l : List ℚ} {y : ℚ} (h : y ∈ l) (a : ℚ) :
    l.foldl min a ≤ y := by
  induction l generalizing a with
  | nil => cases h
  | cons x xs ih =>
    rcases List.mem_cons.mp h with rfl | h
    · exact (foldl_min_le_init xs _).trans (min_le_right a y)
    · exact ih h _

theorem init_le_foldl_max (l : List ℚ) (a : ℚ) : a ≤ l.foldl max a := by
  induction l generalizing a with
  | nil => exact le_refl a
  | cons x xs ih => exact (le_max_left a x).trans (ih (max a x))

theorem mem_le_foldl_max {l : List ℚ} {y : ℚ} (h : y ∈ l) (a : ℚ) :
    y ≤ l.foldl max a := by
  induction l generalizing a with
  | nil => cases h
  | cons x xs ih =>
    rcases List.mem_cons.mp h with rfl | h
    · exact (le_max_right a y).trans (init_le_foldl_max xs _)
    · exact ih h _

theorem listMin_le_of_mem {l : List ℚ} {y : ℚ} (h : y ∈ l) : listMin l ≤ y := by
  cases l with
  | nil => cases h
  | cons x xs =>
    rcases List.mem_cons.mp h with rfl | h
    · exact foldl_min_le_init xs y
    · exact foldl_min_le_mem h x

theorem le_listMax_of_mem {l : List ℚ} {y : ℚ} (h : y ∈ l) : y ≤ listMax l := by
  cases l with
  | nil => cases h
  | cons x xs =>
    rcases List.mem_cons.mp h with rfl | h
    · exact init_le_foldl_max xs y
    · exact mem_le_foldl_max h x

theorem arangeQ_lattice (a b s : ℚ) (hs : 0 < s) (hab : a ≤ b) :
    ∃ n : ℕ, 0 < n ∧
      arangeQ a (b + s) s
        = (List.range n).map (fun k : ℕ => a + (k : ℚ) * s) ∧
      b ≤ a + ((n : ℚ) - 1) * s := by
  have hs0 : s ≠ 0 := ne_of_gt hs
  set u : ℚ := (b + s - a) / s with hu
  have hu1 : 1 ≤ u := by
    rw [hu, le_div_iff₀ hs]
    linarith
  have hceil : (1 : ℤ) ≤ ⌈u⌉ := by
    have := Int.le_ceil u
    exact_mod_cast (le_trans (by exact_mod_cast hu1) this :
      ((1 : ℤ) : ℚ) ≤ (⌈u⌉ : ℚ))
  refine ⟨Int.toNat ⌈u⌉, by omega, ?_, ?_⟩
  · rw [arangeQ, if_pos hs]
  · have htn : ((Int.toNat ⌈u⌉ : ℤ) : ℚ) = ((⌈u⌉ : ℤ) : ℚ) := by
      exact_mod_cast congrArg (fun z : ℤ => (z : ℚ))
        (Int.toNat_of_nonneg (by linarith))
    have hcu : u ≤ ((⌈u⌉ : ℤ) : ℚ) := Int.le_ceil u
    have : u ≤ ((Int.toNat ⌈u⌉ : ℕ) : ℚ) := by
      rw [show ((Int.toNat ⌈u⌉ : ℕ) : ℚ) = ((Int.toNat ⌈u⌉ : ℤ) : ℚ) by
        push_cast; ring]
      rw [htn]
      exact hcu
    have hdiv : u * s = b + s - a := div_mul_cancel₀ _ hs0
    nlinarith [this]

/-! ### Claim instances -/

/-- C1 (code bug): a network built from a multi-curve input does not expose
the originating segment's weight.  `create_network` wraps each sub-curve of
the `MultiLineString` with the pair's traffic value `7/10`, but
`WeightedMultiLineString.__init__` — called without its `weights` parameter
— re-wraps every sub-line with the default weight `0.0`, so the resulting
network part carries weight `0`, not `7/10`, and a scoring pass cannot
recover the part's traffic weight. -/
theorem create_network_multi_weight_reset :
    create_network [Geom.multi [SubGeom.line [(0, 0), (1, 0)]]] [7 / 10]
      = .ok [⟨[((0 : ℚ), (0 : ℚ)), (1, 0)], 0⟩] ∧ (0 : ℚ) ≠ 7 / 10 := by
  constructor
  · rfl
  · norm_num

/-- C2 (counterexample): a candidate at distance exactly 500 (`max_road`)
from a single road segment of weight `0.8`, with no hubs and no facilities,
scores `2`, not `0`: the far-zone branch contributes
`2 * ((500 - 500)/500/2) + (0.8/2) * 5 = 2`.  Only the proximity term
vanishes at the outer boundary; the traffic term does not. -/
theorem score_boundary_counterexample :
    score_locations dist500 distP0 [] [] (0, 0)
      [⟨[((0 : ℚ), (0 : ℚ)), (0, 1)], 8 / 10⟩] false = 2 ∧ (2 : ℚ) ≠ 0 := by
  constructor
  · norm_num [score_locations, dist500]
  · norm_num

/-- C2 (amended): at distance exactly `max_road = 500` from a single road
segment of weight `w`, with no hubs or facilities, the score is
`5 * (w / 2)`: the proximity term vanishes at the outer zone boundary but
the traffic term still contributes the halved segment weight times the
traffic weight (for `w = 0.8` the score is `2`, not `0`). -/
theorem score_boundary_traffic_term (distL : Pt → List Pt → ℚ)
    (distP : Pt → Pt → ℚ) (candidate : Pt) (coords : List Pt) (w : ℚ)
    (h : distL candidate coords = 500) :
    score_locations distL distP [] [] candidate [⟨coords, w⟩] false
      = 5 * (w / 2) := by
  norm_num [score_locations, h]
  ring

/-- C2 (witness): the amended boundary statement evaluated at the concrete
constant distance function `dist500` and weight `0.8`. -/
theorem score_boundary_traffic_term_witness :
    dist500 ((0 : ℚ), (0 : ℚ)) [((0 : ℚ), (0 : ℚ)), (0, 1)] = 500 ∧
    score_locations dist500 distP0 [] [] (0, 0)
      [⟨[((0 : ℚ), (0 : ℚ)), (0, 1)], 8 / 10⟩] false = 5 * (8 / 10 / 2) :=
  ⟨rfl, score_boundary_traffic_term dist500 distP0 (0, 0)
    [((0 : ℚ), (0 : ℚ)), (0, 1)] (8 / 10) rfl⟩

/-- C3 (code bug): the selection loop of `merge_closest_points` iterates
`for i in range(len(distances))`, i.e. over candidates in ascending index
order — the preceding `sorted(..., reverse=True)` by proximity-set size
only reorders the dictionary, which the key lookups ignore.  On the chain
`exTop3` the code seeds the first cluster at candidate 0 and produces one
2-point site, while processing in descending set-size order (the claimed
behaviour, `merge_closest_points_bySize`) seeds at candidate 1 and produces
one 3-point site.  The skipped candidate 2 is itself unclaimed, so it is
not "already claimed by an earlier cluster" either. -/
theorem merge_order_dead_sort :
    merge_closest_points exTop3 5000 = [(((2000 : ℚ), (0 : ℚ)), 3 / 2, 2)] ∧
    merge_closest_points_bySize exTop3 5000
      = [(((8000 : ℚ) / 3, (3100 : ℚ) / 3), 2, 3)] := by
  constructor
  · norm_num [merge_closest_points, selectClusters, proxSets, proxOf, within,
      distSq, selectGo, representative, avgScore, polygonCentroid, exTop3]
  · norm_num [merge_closest_points_bySize, sortBySize, insertBySize, proxSets,
      proxOf, within, distSq, selectGo, representative, avgScore,
      polygonCentroid, exTop3]

/-- C6 (counterexample): `merge_closest_points` on an empty candidate list
returns the empty result list — every loop body runs zero times and
`polygones = []` is returned; no `EmptyInputError` (or any error) exists in
the code. -/
theorem merge_empty_counterexample :
    merge_closest_points [] 5000 = [] := rfl

/-- C6 (amended): for every separation distance, `merge_closest_points`
applied to an empty candidate list returns the empty list of merged sites
rather than failing. -/
theorem merge_empty_returns_nil (distance_min : ℚ) :
    merge_closest_points [] distance_min = [] := rfl

/-- C7 (code bug): an invalid (non-curve) geometry after the first does not
make `create_network` fail.  No `isinstance` branch reassigns the loop
local `segment_with_weight`, so the previous iteration's value is silently
appended again: here the weighted first segment appears twice in the
returned network, and no error of any kind is signalled. -/
theorem create_network_stale_segment :
    create_network [Geom.line [(0, 0), (1, 0)], Geom.other] [3 / 10, 1 / 2]
      = .ok [⟨[((0 : ℚ), (0 : ℚ)), (1, 0)], 3 / 10⟩,
             ⟨[((0 : ℚ), (0 : ℚ)), (1, 0)], 3 / 10⟩] := rfl

/-- C4 (counterexample): on the chain `exTop3` the only output cluster's
claimed set is `[(0,0), (4000,0)]`; candidate `(4000, 3100)` appears in no
cluster at all (its proximity set shares `(4000, 0)` with the first
cluster, so it is skipped without ever being claimed) — not in exactly
one. -/
theorem merge_lost_candidate_counterexample :
    selectClusters exTop3 5000 = [[((0 : ℚ), (0 : ℚ)), ((4000 : ℚ), (0 : ℚ))]] ∧
    ((4000 : ℚ), (3100 : ℚ)) ∉ [((0 : ℚ), (0 : ℚ)), ((4000 : ℚ), (0 : ℚ))] := by
  constructor
  · norm_num [selectClusters, proxSets, proxOf, within, distSq, selectGo,
      exTop3]
  · norm_num [Prod.ext_iff]

/-- C4 (amended): every output cluster of `merge_closest_points` is the
exact proximity set of its seed candidate — in particular it includes every
candidate within `distance_min` of the seed — and the claimed sets of
distinct clusters are pairwise disjoint, so each candidate appears in at
most one cluster's claimed set.  (Not in exactly one: a candidate whose
proximity set overlaps an earlier cluster without the candidate itself
being claimed appears in none, as the counterexample shows.) -/
theorem merge_claimed_sets (top : List (Pt × ℚ)) (dmin : ℚ) :
    (∀ v ∈ selectClusters top dmin, ∃ t ∈ top, v = proxOf top dmin t ∧
      ∀ u ∈ top, within t.1 u.1 dmin = true → u.1 ∈ v) ∧
    (selectClusters top dmin).Pairwise
      (fun v1 v2 => ∀ p, p ∈ v1 → p ∈ v2 → False) := by
  constructor
  · intro v hv
    have hm : v ∈ proxSets top dmin := selectGo_subset hv
    rcases List.mem_map.mp hm with ⟨t, ht, rfl⟩
    refine ⟨t, ht, rfl, ?_⟩
    intro u hu hw
    exact List.mem_map.mpr ⟨u, List.mem_filter.mpr ⟨hu, hw⟩, rfl⟩
  · exact selectGo_pairwise _ _

/-- C4 (witness): the claimed-set structure evaluated on the two-candidate
input `exTop2`. -/
theorem merge_claimed_sets_witness :
    (∀ v ∈ selectClusters exTop2 5000, ∃ t ∈ exTop2,
      v = proxOf exTop2 5000 t ∧
      ∀ u ∈ exTop2, within t.1 u.1 5000 = true → u.1 ∈ v) ∧
    (selectClusters exTop2 5000).Pairwise
      (fun v1 v2 => ∀ p, p ∈ v1 → p ∈ v2 → False) :=
  merge_claimed_sets exTop2 5000

/-- C5 (counterexample): the cluster of the four candidates `exTop4` has
representative `(26/9, 11/9)`, the area centroid of the non-convex polygon
traced by the points in their stored order — not `(8/3, 4/3)`, the centroid
of their convex hull (the triangle `(0,0), (4,0), (4,4)`; the fourth point
`(2,1)` lies inside it). -/
theorem merge_hull_centroid_counterexample :
    merge_closest_points exTop4 5000 = [(((26 : ℚ) / 9, (11 : ℚ) / 9), 1, 4)] ∧
    convexHullCentroid [((0 : ℚ), (0 : ℚ)), (4, 0), (4, 4), (2, 1)]
      = ((8 : ℚ) / 3, (4 : ℚ) / 3) ∧
    (((26 : ℚ) / 9, (11 : ℚ) / 9) : Pt) ≠ ((8 : ℚ) / 3, (4 : ℚ) / 3) := by
  refine ⟨?_, ?_, ?_⟩
  · norm_num [merge_closest_points, selectClusters, proxSets, proxOf, within,
      distSq, selectGo, representative, avgScore, polygonCentroid, exTop4]
  · norm_num [convexHullCentroid, convexHullPts, sortLex, insertLex, lexLe,
      halfHull, chainStep, cross, polygonCentroid]
  · norm_num [Prod.ext_iff]

/-- C5 (amended): every site output by `merge_closest_points` comes from a
selected cluster; its merge count is the cluster size and its score the
cluster's average score; a 1-point cluster's representative is that point
and a 2-point cluster's is the exact midpoint of the segment joining the
two points (the `LineString` centroid), as claimed — but a cluster of 3 or
more points gets the area centroid of the polygon formed by the points in
their stored candidate order, which coincides with the convex-hull centroid
only when that order traces the hull. -/
theorem merge_representative_cases (top : List (Pt × ℚ)) (dmin : ℚ)
    (site : Pt × ℚ × ℕ) (h : site ∈ merge_closest_points top dmin) :
    ∃ v ∈ selectClusters top dmin,
      site.2.2 = v.length ∧ site.2.1 = avgScore top v ∧
      (∀ p, v = [p] → site.1 = p) ∧
      (∀ p q, v = [p, q] →
        site.1 = ((p.1 + q.1) / 2, (p.2 + q.2) / 2)) ∧
      (3 ≤ v.length → site.1 = polygonCentroid v) := by
  rcases List.mem_map.mp h with ⟨v, hv, rfl⟩
  refine ⟨v, hv, rfl, rfl, ?_, ?_, ?_⟩
  · rintro p rfl; rfl
  · rintro p q rfl; rfl
  · intro h3
    rcases v with _ | ⟨a, _ | ⟨b, _ | ⟨c, v⟩⟩⟩
    · simp at h3
    · simp at h3
    · simp at h3
    · rfl

/-- C5 (witness): the specification's own merge scenario — two candidates
3000 units apart with `distance_min = 5000` merge into one 2-point site
whose representative is their exact midpoint `(1500, 0)`. -/
theorem merge_representative_cases_witness :
    (((1500 : ℚ), (0 : ℚ)), (15 : ℚ), 2) ∈ merge_closest_points exTop2 5000 ∧
    ∃ v ∈ selectClusters exTop2 5000,
      2 = v.length ∧ (15 : ℚ) = avgScore exTop2 v ∧
      (∀ p, v = [p] → (((1500 : ℚ), (0 : ℚ)) : Pt) = p) ∧
      (∀ p q, v = [p, q] →
        (((1500 : ℚ), (0 : ℚ)) : Pt) = ((p.1 + q.1) / 2, (p.2 + q.2) / 2)) ∧
      (3 ≤ v.length → (((1500 : ℚ), (0 : ℚ)) : Pt) = polygonCentroid v) := by
  have hm : (((1500 : ℚ), (0 : ℚ)), (15 : ℚ), 2)
      ∈ merge_closest_points exTop2 5000 := by
    norm_num [merge_closest_points, selectClusters, proxSets, proxOf, within,
      distSq, selectGo, representative, avgScore, exTop2]
  exact ⟨hm, merge_representative_cases exTop2 5000 _ hm⟩

theorem sizeGo_demands (caps profs : ℚ × ℚ × ℚ) (D T : ℚ) :
    ∀ (pts : List (Pt × ℚ)) (last : Option String)
      (out : List (Pt × String × ℚ × ℚ)),
      sizeGo caps profs D T pts last = .ok out →
      out.map (fun r => r.2.2.2) = pts.map (fun x => x.2 / T * D) := by
  intro pts
  induction pts with
  | nil =>
    intro last out h
    rw [sizeGo] at h
    cases h
    rfl
  | cons ps rest ih =>
    intro last out h
    obtain ⟨p, s⟩ := ps
    rw [sizeGo] at h
    split at h
    · exact absurd h (by simp)
    next sz hsz =>
      cases hrec : sizeGo caps profs D T rest (some sz) with
      | error e => rw [hrec] at h; exact absurd h (by simp [Except.map])
      | ok out' =>
        rw [hrec] at h
        simp only [Except.map] at h
        cases h
        simpa using ih (some sz) out' hrec

/-- C8 (counterexample): with capacities `(10, 20, 30)`, profitabilities
`(1, 2, 3)` and total demand `100`, the second site's estimated demand `5`
meets none of the three tier thresholds (`5 ≤ 1 * 10 < 2 * 20 < 3 * 30`),
yet the site is returned with the tier `"large"` — the value the loop local
`station_size` retained from the first site.  The implementation does
silently give the site a tier taken from elsewhere. -/
theorem size_station_stale_tier_counterexample :
    get_size_station (10, 20, 30) (1, 2, 3) [("A", 100)]
      [(((0 : ℚ), (0 : ℚ)), 10), (((1 : ℚ), (0 : ℚ)), 1 / 2)] 10
      = .ok [(((0 : ℚ), (0 : ℚ)), "large", 10, 100),
             (((1 : ℚ), (0 : ℚ)), "large", 1 / 2, 5)] ∧
    ¬ ((1 : ℚ) * 10 < 5) := by
  constructor
  · norm_num [get_size_station, sizeGo, demandTotal, seriesToDict, Except.map]
  · norm_num

/-- C8 (amended): when a site's estimated demand meets none of the three
tier thresholds, the loop local `station_size` is not assigned for it: if
it is the first such site and no tier was ever assigned, reading the
variable fails with an `UnboundLocalError` (so the site is indeed neither
silently dropped nor given a fresh tier) — but when an earlier site did
receive a tier, the below-threshold site silently reuses that stale tier,
as the counterexample shows. -/
theorem size_station_first_site_below (caps profs : ℚ × ℚ × ℚ)
    (regions : List (String × ℚ)) (rest : List (Pt × ℚ)) (p : Pt) (s T : ℚ)
    (h1 : ¬ profs.2.2 * caps.2.2 < s / T * demandTotal regions)
    (h2 : ¬ profs.2.1 * caps.2.1 < s / T * demandTotal regions)
    (h3 : ¬ profs.1 * caps.1 < s / T * demandTotal regions) :
    get_size_station caps profs regions ((p, s) :: rest) T
      = .error .unboundLocal := by
  rw [get_size_station, sizeGo]
  simp only [if_neg h1, if_neg h2, if_neg h3]

/-- C8 (witness): a first site whose estimated demand `10` meets no
threshold (`10 ≤ 1 * 10`) makes the computation fail with the
unbound-variable error. -/
theorem size_station_first_site_below_witness :
    get_size_station (10, 20, 30) (1, 2, 3) [("A", 100)]
      [(((0 : ℚ), (0 : ℚ)), 1)] 10 = .error .unboundLocal :=
  size_station_first_site_below (10, 20, 30) (1, 2, 3) [("A", 100)] []
    (0, 0) 1 10
    (by norm_num [demandTotal, seriesToDict])
    (by norm_num [demandTotal, seriesToDict])
    (by norm_num [demandTotal, seriesToDict])

/-- C9: conservation of demand.  When the `score_total` passed to
`get_size_station` equals the sum of the sites' aggregated scores (and is
nonzero, as it must be for the division to be meaningful) and the sizing
succeeds, the estimated demands `score / score_total * demand_total` of the
returned sites sum exactly to `demand_total`, the sum of the regional
demand mapping's values.  Exact over `ℚ`; the floating-point tolerance of
the claim is not needed. -/
theorem size_station_conservation (caps profs : ℚ × ℚ × ℚ)
    (regions : List (String × ℚ)) (pts : List (Pt × ℚ)) (T : ℚ)
    (out : List (Pt × String × ℚ × ℚ))
    (hT : (pts.map (fun x => x.2)).sum = T) (hT0 : T ≠ 0)
    (hok : get_size_station caps profs regions pts T = .ok out) :
    (out.map (fun r => r.2.2.2)).sum = demandTotal regions := by
  have hd := sizeGo_demands caps profs (demandTotal regions) T pts none out hok
  rw [hd]
  have hcongr : pts.map (fun x => x.2 / T * demandTotal regions)
      = pts.map (fun x => x.2 * (T⁻¹ * demandTotal regions)) := by
    simp only [div_eq_mul_inv, mul_assoc]
  rw [hcongr, List.sum_map_mul_right, hT, ← mul_assoc,
    mul_inv_cancel₀ hT0, one_mul]

/-- C9 (witness): two sites with scores `3` and `1`, `score_total = 4`, and
regional demand `100`: the estimated demands `75` and `25` sum to the total
demand `100`. -/
theorem size_station_conservation_witness :
    (([(((0 : ℚ), (0 : ℚ)), (3 : ℚ)),
       (((1 : ℚ), (0 : ℚ)), (1 : ℚ))].map (fun x => x.2)).sum = (4 : ℚ)) ∧
    (4 : ℚ) ≠ 0 ∧
    (([(((0 : ℚ), (0 : ℚ)), "medium", (3 : ℚ), (75 : ℚ)),
       (((1 : ℚ), (0 : ℚ)), "small", (1 : ℚ), (25 : ℚ))].map
        (fun r => r.2.2.2)).sum = demandTotal [("A", 100)]) := by
  refine ⟨by norm_num, by norm_num, ?_⟩
  exact size_station_conservation (10, 20, 30) (1, 2, 3) [("A", 100)]
    [(((0 : ℚ), (0 : ℚ)), 3), (((1 : ℚ), (0 : ℚ)), 1)] 4 _
    (by norm_num) (by norm_num)
    (by norm_num [get_size_station, sizeGo, demandTotal, seriesToDict,
      Except.map])

/-- C10: with no candidate override, `get_best_location` generates the full
lattice of spacing `grid_size` over the network's bounding box — the x and
y coordinates are exactly `min + k * grid_size` for `k = 0, 1, ...`, the
lattice reaches at least `xmax` (resp. `ymax`) because `np.arange` is
called with stop `max + grid_size`, and the bounding box contains every
network coordinate — scores every generated candidate, and returns the full
scored set (a permutation of the scored lattice, not truncated) sorted by
score descending. -/
theorem get_best_location_grid (distL : Pt → List Pt → ℚ)
    (distP : Pt → Pt → ℚ) (airLogis : List (Pt × ℚ)) (stationsG : List Pt)
    (road_segments : List Geom) (traffic_only : List ℚ) (grid_size : ℚ)
    (gas_stations : Bool) (net : List WSeg)
    (hstep : 0 < grid_size)
    (hnet : create_network road_segments traffic_only = .ok net)
    (hne : netCoords net ≠ []) :
    ∃ res : List (Pt × ℚ),
      get_best_location distL distP airLogis stationsG road_segments
        traffic_only grid_size gas_stations none = .ok res ∧
      res.Perm ((gridPoints net grid_size).map (fun c =>
        (c, score_locations distL distP airLogis stationsG c net
          gas_stations))) ∧
      List.Sorted (fun a b : Pt × ℚ => b.2 ≤ a.2) res ∧
      (∃ nx : ℕ, 0 < nx ∧
        gridX net grid_size = (List.range nx).map
          (fun k : ℕ => (netBounds net).xmin + (k : ℚ) * grid_size)) ∧
      (∃ ny : ℕ, 0 < ny ∧
        gridY net grid_size = (List.range ny).map
          (fun k : ℕ => (netBounds net).ymin + (k : ℚ) * grid_size)) ∧
      (∃ x ∈ gridX net grid_size, (netBounds net).xmax ≤ x) ∧
      (∃ y ∈ gridY net grid_size, (netBounds net).ymax ≤ y) ∧
      (∀ p ∈ netCoords net,
        (netBounds net).xmin ≤ p.1 ∧ p.1 ≤ (netBounds net).xmax ∧
        (netBounds net).ymin ≤ p.2 ∧ p.2 ≤ (netBounds net).ymax) := by
  have hbb : ∀ p ∈ netCoords net,
      (netBounds net).xmin ≤ p.1 ∧ p.1 ≤ (netBounds net).xmax ∧
      (netBounds net).ymin ≤ p.2 ∧ p.2 ≤ (netBounds net).ymax := by
    intro p hp
    exact ⟨listMin_le_of_mem (List.mem_map_of_mem _ hp),
      le_listMax_of_mem (List.mem_map_of_mem _ hp),
      listMin_le_of_mem (List.mem_map_of_mem _ hp),
      le_listMax_of_mem (List.mem_map_of_mem _ hp)⟩
  obtain ⟨p0, hp0⟩ := List.exists_mem_of_ne_nil _ hne
  have hxm : (netBounds net).xmin ≤ (netBounds net).xmax :=
    (hbb p0 hp0).1.trans (hbb p0 hp0).2.1
  have hym : (netBounds net).ymin ≤ (netBounds net).ymax :=
    (hbb p0 hp0).2.2.1.trans (hbb p0 hp0).2.2.2
  obtain ⟨nx, hnx, hgx, hlx⟩ :=
    arangeQ_lattice (netBounds net).xmin (netBounds net).xmax grid_size
      hstep hxm
  obtain ⟨ny, hny, hgy, hly⟩ :=
    arangeQ_lattice (netBounds net).ymin (netBounds net).ymax grid_size
      hstep hym
  have hcastx : ((nx - 1 : ℕ) : ℚ) = (nx : ℚ) - 1 := by
    rw [Nat.cast_sub (by omega)]
    norm_num
  have hcasty : ((ny - 1 : ℕ) : ℚ) = (ny : ℚ) - 1 := by
    rw [Nat.cast_sub (by omega)]
    norm_num
  refine ⟨((gridPoints net grid_size).map (fun c =>
      (c, score_locations distL distP airLogis stationsG c net
        gas_stations))).mergeSort (fun a b => decide (b.2 ≤ a.2)),
    ?_, List.mergeSort_perm _ _, ?_, ⟨nx, hnx, hgx⟩, ⟨ny, hny, hgy⟩,
    ?_, ?_, hbb⟩
  · rw [get_best_location, hnet]
    rfl
  · have hs := @List.sorted_mergeSort (Pt × ℚ)
      (fun a b : Pt × ℚ => decide (b.2 ≤ a.2))
      (fun a b c h1 h2 => by
        simp only [decide_eq_true_eq] at h1 h2 ⊢
        exact h2.trans h1)
      (fun a b => by
        simp only [Bool.or_eq_true, decide_eq_true_eq]
        exact le_total b.2 a.2)
      ((gridPoints net grid_size).map (fun c =>
        (c, score_locations distL distP airLogis stationsG c net
          gas_stations)))
    exact hs.imp (fun h => of_decide_eq_true h)
  · refine ⟨(netBounds net).xmin + ((nx - 1 : ℕ) : ℚ) * grid_size, ?_, ?_⟩
    · rw [gridX, hgx]
      exact List.mem_map_of_mem _ (List.mem_range.mpr (by omega))
    · rw [hcastx]
      exact hlx
  · refine ⟨(netBounds net).ymin + ((ny - 1 : ℕ) : ℚ) * grid_size, ?_, ?_⟩
    · rw [gridY, hgy]
      exact List.mem_map_of_mem _ (List.mem_range.mpr (by omega))
    · rw [hcasty]
      exact hly

/-- C10 (witness): the grid specification evaluated on the one-segment
network `exNet` (bounding box `(0, 0, 1, 1)`) with spacing `1`, everything
out of scoring range. -/
theorem get_best_location_grid_witness :
    (0 : ℚ) < 1 ∧ create_network exRoads [1 / 2] = .ok exNet ∧
    netCoords exNet ≠ [] ∧
    ∃ res : List (Pt × ℚ),
      get_best_location dist1000 distP0 [] [] exRoads [1 / 2] 1 false none
        = .ok res ∧
      res.Perm ((gridPoints exNet 1).map (fun c =>
        (c, score_locations dist1000 distP0 [] [] c exNet false))) ∧
      List.Sorted (fun a b : Pt × ℚ => b.2 ≤ a.2) res ∧
      (∃ nx : ℕ, 0 < nx ∧ gridX exNet 1 = (List.range nx).map
        (fun k : ℕ => (netBounds exNet).xmin + (k : ℚ) * 1)) ∧
      (∃ ny : ℕ, 0 < ny ∧ gridY exNet 1 = (List.range ny).map
        (fun k : ℕ => (netBounds exNet).ymin + (k : ℚ) * 1)) ∧
      (∃ x ∈ gridX exNet 1, (netBounds exNet).xmax ≤ x) ∧
      (∃ y ∈ gridY exNet 1, (netBounds exNet).ymax ≤ y) ∧
      (∀ p ∈ netCoords exNet,
        (netBounds exNet).xmin ≤ p.1 ∧ p.1 ≤ (netBounds exNet).xmax ∧
        (netBounds exNet).ymin ≤ p.2 ∧ p.2 ≤ (netBounds exNet).ymax) := by
  refine ⟨by norm_num, rfl, by simp [exNet, netCoords], ?_⟩
  exact get_best_location_grid dist1000 distP0 [] [] exRoads [1 / 2] 1
    false exNet (by norm_num) rfl (by simp [exNet, netCoords])

end StationFinder
